import Mathlib

/-!
Verification development for the MERN user-record API.

Shallow embedding of the backend of the repository:
- `backend/models/User.js`   (mongoose schema: setters and validators)
- `backend/routes/users.js`  (CRUD + search + pagination routes)
- `backend/utils/healthCheck.js` (health views)
- `backend/server.js`        (HTTP status mapping, health counter middleware)

Strings are modelled as `List Char` (`Str`).  JavaScript / mongoose string
setters (`trim`, `lowercase`) and the schema regular expressions are embedded
directly.  The document store is a list of records plus an id counter; time is
an explicit `now : Nat` parameter.  Machine-level concerns (float precision in
`parseInt`, Unicode whitespace classes beyond ASCII) are simplified where they
cannot affect any stated property.
-/

/-- Strings of the JavaScript layer, modelled as lists of characters. -/
abbrev Str := List Char

/-- The whitespace characters recognised by the JS `trim` / `\s` (ASCII part). -/
def wsChar (c : Char) : Bool :=
  c == ' ' || c == '\t' || c == '\n' || c == '\r'

/-- JS `String.prototype.trim` (mongoose `trim: true` setter): drop leading and
trailing whitespace. -/
def trimStr (s : Str) : Str :=
  ((s.dropWhile wsChar).reverse.dropWhile wsChar).reverse

/-- ASCII lowering of one character (the effect of JS `toLowerCase` on the
ASCII range). -/
def lowerChar (c : Char) : Char :=
  if 65 ≤ c.toNat ∧ c.toNat ≤ 90 then Char.ofNat (c.toNat + 32) else c

/-- JS `String.prototype.toLowerCase` (mongoose `lowercase: true` setter). -/
def lowerStr (s : Str) : Str := s.map lowerChar

/-- The mongoose email setters applied in order: `trim` then `lowercase`
(`models/User.js`, `email: { lowercase: true, trim: true }`). -/
def normEmail (s : Str) : Str := lowerStr (trimStr s)

/-- `strStartsWith s q`: `q` is an initial segment of `s`. -/
def strStartsWith : Str → Str → Bool
  | _, [] => true
  | [], _ :: _ => false
  | c :: cs, d :: ds => c == d && strStartsWith cs ds

/-- `strContainsSub s q`: `q` occurs as a contiguous substring of `s`. -/
def strContainsSub : Str → Str → Bool
  | [], q => strStartsWith [] q
  | c :: cs, q => strStartsWith (c :: cs) q || strContainsSub cs q

/-! ### A small regular-expression engine (for the schema `match` validators)

`models/User.js` validates `email` against
`/^\w+([.-]?\w+)*@\w+([.-]?\w+)*(\.\w{2,3})+$/` and `phone` against
`/^[0-9-+\s()]+$/`.  Both are anchored, so they are embedded as whole-string
matching of a regular expression, decided with Brzozowski derivatives. -/

/-- Regular expressions over character predicates. -/
inductive RE where
  | emp : RE
  | eps : RE
  | chC : (Char → Bool) → RE
  | alt : RE → RE → RE
  | seqR : RE → RE → RE
  | star : RE → RE

/-- Does the regular expression accept the empty string? -/
def RE.nullable : RE → Bool
  | .emp => false
  | .eps => true
  | .chC _ => false
  | .alt a b => a.nullable || b.nullable
  | .seqR a b => a.nullable && b.nullable
  | .star _ => true

/-- Brzozowski derivative of a regular expression by a character. -/
def RE.deriv : RE → Char → RE
  | .emp, _ => .emp
  | .eps, _ => .emp
  | .chC p, c => if p c then .eps else .emp
  | .alt a b, c => .alt (a.deriv c) (b.deriv c)
  | .seqR a b, c =>
    if a.nullable then .alt (.seqR (a.deriv c) b) (b.deriv c)
    else .seqR (a.deriv c) b
  | .star a, c => .seqR (a.deriv c) (.star a)

/-- Whole-string regular-expression matching (the anchored `^...$` test). -/
def reMatch (r : RE) (s : Str) : Bool :=
  (s.foldl RE.deriv r).nullable

/-- `r+` : one or more repetitions. -/
def RE.plusR (r : RE) : RE := .seqR r (.star r)

/-- `r?` : zero or one occurrence. -/
def RE.opt (r : RE) : RE := .alt .eps r

/-- The JS `\w` class: `[A-Za-z0-9_]`. -/
def wordChar (c : Char) : Bool :=
  ('a' ≤ c && c ≤ 'z') || ('A' ≤ c && c ≤ 'Z') || ('0' ≤ c && c ≤ '9') || c == '_'

/-- The `[.-]` class of the email pattern. -/
def dotDash (c : Char) : Bool := c == '.' || c == '-'

/-- `\w+([.-]?\w+)*` — one dotted/dashed word group of the email pattern. -/
def wordGroup : RE :=
  .seqR (RE.plusR (.chC wordChar)) (.star (.seqR (RE.opt (.chC dotDash)) (RE.plusR (.chC wordChar))))

/-- The email pattern of `models/User.js`:
`^\w+([.-]?\w+)*@\w+([.-]?\w+)*(\.\w{2,3})+$`. -/
def emailRE : RE :=
  .seqR wordGroup
    (.seqR (.chC (· == '@'))
      (.seqR wordGroup
        (RE.plusR (.seqR (.chC (· == '.'))
          (.seqR (.chC wordChar) (.seqR (.chC wordChar) (RE.opt (.chC wordChar))))))))

/-- The `[0-9-+\s()]` class of the phone pattern of `models/User.js`. -/
def phoneChar (c : Char) : Bool :=
  ('0' ≤ c && c ≤ '9') || c == '-' || c == '+' || wsChar c || c == '(' || c == ')'

/-- The phone pattern of `models/User.js`: `^[0-9-+\s()]+$`. -/
def phoneRE : RE := RE.plusR (.chC phoneChar)

/-! ### JS `parseInt` and the `||` defaulting of the list route -/

/-- Value of a decimal digit character. -/
def digitVal (c : Char) : Option Nat :=
  if '0' ≤ c ∧ c ≤ '9' then some (c.toNat - 48) else none

/-- Value of a hexadecimal digit character. -/
def hexVal (c : Char) : Option Nat :=
  if '0' ≤ c ∧ c ≤ '9' then some (c.toNat - 48)
  else if 'a' ≤ c ∧ c ≤ 'f' then some (c.toNat - 87)
  else if 'A' ≤ c ∧ c ≤ 'F' then some (c.toNat - 55)
  else none

/-- Accumulate the maximal leading run of digits. -/
def parseDigitsAcc (val : Char → Option Nat) (base acc : Nat) : Str → Nat
  | [] => acc
  | c :: cs =>
    match val c with
    | some d => parseDigitsAcc val base (acc * base + d) cs
    | none => acc

/-- Parse a non-empty leading digit run; `none` when the first character is not
a digit (JS `parseInt` yields `NaN` then). -/
def parseUnsigned (val : Char → Option Nat) (base : Nat) (s : Str) : Option Nat :=
  match s with
  | [] => none
  | c :: _ =>
    match val c with
    | none => none
    | some _ => some (parseDigitsAcc val base 0 s)

/-- JS `parseInt(s)` with no radix argument: skip leading whitespace, optional
sign, auto-detected `0x` hex prefix, then the maximal digit run; `none` models
`NaN`.  (Float precision loss on huge literals is not modelled.) -/
def parseIntJS (s : Str) : Option Int :=
  let s1 := s.dropWhile wsChar
  match s1 with
  | '-' :: r => (parseIntHead r).map (fun n => -(n : Int))
  | '+' :: r => (parseIntHead r).map (fun n => (n : Int))
  | _ => (parseIntHead s1).map (fun n => (n : Int))
where
  /-- Unsigned part: `0x`/`0X` switches to hexadecimal. -/
  parseIntHead (s : Str) : Option Nat :=
    match s with
    | '0' :: x :: r =>
      if x = 'x' ∨ x = 'X' then parseUnsigned hexVal 16 r
      else parseUnsigned digitVal 10 s
    | _ => parseUnsigned digitVal 10 s

/-- JS `v || d` on a number that may be `NaN` (`none`): `NaN` and `0` are
falsy, every other number is passed through (`routes/users.js` lines 39-40). -/
def jsOr (v : Option Int) (d : Int) : Int :=
  match v with
  | none => d
  | some n => if n = 0 then d else n

/-! ### Data model: user records and the store -/

/-- A persisted user document (`models/User.js` plus the store-managed `_id`
and `timestamps: true` fields). -/
structure UserRecord where
  id : Nat
  name : Str
  email : Str
  age : Option Int
  city : Option Str
  phone : Option Str
  createdAt : Nat
  updatedAt : Nat
deriving DecidableEq, Repr

/-- A request body `{name, email, age, city, phone}` as destructured by the
routes; absent fields are `none` (JS `undefined`). -/
structure UserInput where
  name : Option Str
  email : Option Str
  age : Option Int
  city : Option Str
  phone : Option Str
deriving DecidableEq, Repr

/-- The document store: the user collection in natural (insertion) order plus
the id generator. -/
structure Store where
  users : List UserRecord
  nextId : Nat
deriving DecidableEq, Repr

/-- Store well-formedness, guaranteed by the schema for every persisted
document: emails are stored in setter-normal form (trimmed, lower-cased) and
non-empty (`required`), and `_id`s are unique. -/
def WFStore (st : Store) : Prop :=
  (∀ u ∈ st.users, normEmail u.email = u.email ∧ u.email ≠ []) ∧
  (st.users.map (·.id)).Nodup

instance (st : Store) : Decidable (WFStore st) := by
  unfold WFStore; infer_instance

/-- Two submitted emails denote the same address: they are equal
case-insensitively after the schema's whitespace trim (this is exactly the
normal form `models/User.js` stores and queries by). -/
def emailMatches (e stored : Str) : Prop :=
  normEmail e = normEmail stored

instance (e s : Str) : Decidable (emailMatches e s) := by
  unfold emailMatches; infer_instance

/-- Schema validation of the fields present in a request, after the setters
(`runValidators` on save/update; `models/User.js`).  `none` fields are not
validated (mongoose skips validators on `undefined`). -/
def fieldsValid (i : UserInput) : Bool :=
  (match i.name with
   | none => true
   | some n => decide (2 ≤ (trimStr n).length) && decide ((trimStr n).length ≤ 50)) &&
  (match i.email with
   | none => true
   | some e => decide (normEmail e ≠ []) && reMatch emailRE (normEmail e)) &&
  (match i.age with
   | none => true
   | some a => decide (1 ≤ a) && decide (a ≤ 150)) &&
  (match i.city with
   | none => true
   | some c => decide ((trimStr c).length ≤ 100)) &&
  (match i.phone with
   | none => true
   | some p => reMatch phoneRE (trimStr p))

/-- Validation at `user.save()` in the create route: additionally, `name` and
`email` are `required`. -/
def inputValid (i : UserInput) : Bool :=
  i.name.isSome && i.email.isSome && fieldsValid i

/-! ### The CRUD routes (`routes/users.js`) -/

/-- Outcome of `POST /api/users`. -/
inductive CreateRes where
  | dup : CreateRes
  | invalid : CreateRes
  | created : UserRecord → CreateRes
deriving DecidableEq, Repr

/-- HTTP status of the create route: 201 on success, 400 for the duplicate
message and for validation errors caught at `save()`. -/
def createStatus : CreateRes → Nat
  | .created _ => 201
  | _ => 400

/-- `router.post("/")`: duplicate check by `findOne({email})` (the query value
goes through the schema setters), then `save()` (setters + validators), then
201 with the persisted document.  A body without `email` sends `undefined`
into the filter, which mongoose strips, so `findOne({})` returns the first
document of the collection if any. -/
def createUser (st : Store) (now : Nat) (i : UserInput) : CreateRes × Store :=
  let dupHit : Bool :=
    match i.email with
    | none => !st.users.isEmpty
    | some e => st.users.any (fun u => u.email == normEmail e)
  if dupHit then (.dup, st)
  else if inputValid i then
    let r : UserRecord :=
      { id := st.nextId
        name := trimStr (i.name.getD [])
        email := normEmail (i.email.getD [])
        age := i.age
        city := i.city.map trimStr
        phone := i.phone.map trimStr
        createdAt := now
        updatedAt := now }
    (.created r, { users := st.users ++ [r], nextId := st.nextId + 1 })
  else (.invalid, st)

/-- Descending insertion by `createdAt` (used to model `sort({createdAt: -1})`;
the store's tie order is not observable, any deterministic order embeds it). -/
def insertByCreated (u : UserRecord) : List UserRecord → List UserRecord
  | [] => [u]
  | v :: vs =>
    if u.createdAt ≤ v.createdAt then v :: insertByCreated u vs
    else u :: v :: vs

/-- `sort({createdAt: -1})`: the collection ordered by `createdAt` descending. -/
def sortDesc : List UserRecord → List UserRecord
  | [] => []
  | u :: us => insertByCreated u (sortDesc us)

/-- The store's cursor modifiers: sort is applied first, then `skip`, then
`limit` (MongoDB applies them in this order regardless of chaining).  The
store rejects a negative skip (query error); a negative limit returns up to
`|limit|` documents. -/
def runFind (l : List UserRecord) (skip limit : Int) : Option (List UserRecord) :=
  if skip < 0 then none
  else some ((l.drop skip.toNat).take limit.natAbs)

/-- `Math.ceil(a / b)` on integers (`b = 0` gives an infinity in JS and is
unreachable here because the defaulted limit is never 0). -/
def jsCeilDiv (a b : Int) : Int :=
  if b = 0 then 0
  else if 0 < b then (a + b - 1) / b
  else (-a + (-b) - 1) / (-b)

/-- The 200 body of `GET /api/users`. -/
structure ListRes where
  users : List UserRecord
  currentPage : Int
  totalPages : Int
  totalUsers : Nat
deriving DecidableEq, Repr

/-- Outcome of the list route: 200 body or 500 (store error). -/
inductive ListOut where
  | ok : ListRes → ListOut
  | err : ListOut
deriving DecidableEq, Repr

/-- `router.get("/")` after the page/limit defaulting: `skip = (page-1)*limit`,
find with skip/limit/sort, `countDocuments`, `totalPages = ceil(total/limit)`. -/
def listUsersCore (st : Store) (page limit : Int) : ListOut :=
  let skip := (page - 1) * limit
  match runFind (sortDesc st.users) skip limit with
  | none => .err
  | some us =>
    .ok { users := us
          currentPage := page
          totalPages := jsCeilDiv (st.users.length : Int) limit
          totalUsers := st.users.length }

/-- `parseInt(req.query.page) || 1` (`routes/users.js` line 39). -/
def effPage (q : Option Str) : Int := jsOr (q.bind parseIntJS) 1

/-- `parseInt(req.query.limit) || 10` (`routes/users.js` line 40). -/
def effLimit (q : Option Str) : Int := jsOr (q.bind parseIntJS) 10

/-- The full list route, from the raw query-string parameters. -/
def listUsersQS (st : Store) (pageQ limitQ : Option Str) : ListOut :=
  listUsersCore st (effPage pageQ) (effLimit limitQ)

/-- The users of one page (empty on a store error); used to state the
page-concatenation property. -/
def pageUsers (st : Store) (page limit : Int) : List UserRecord :=
  match listUsersCore st page limit with
  | .ok r => r.users
  | .err => []

/-- Outcome of `PUT /api/users/:id`. -/
inductive UpdateRes where
  | dupU : UpdateRes
  | invalidU : UpdateRes
  | notFoundU : UpdateRes
  | updated : UserRecord → UpdateRes
deriving DecidableEq, Repr

/-- HTTP status of the update route. -/
def updateStatus : UpdateRes → Nat
  | .updated _ => 200
  | .notFoundU => 404
  | _ => 400

/-- The document produced by `findByIdAndUpdate(id, {name, email, age, city,
phone}, {new: true, runValidators: true})`: mongoose strips the `undefined`
fields, so only present fields are `$set` (through the schema setters);
`timestamps: true` bumps `updatedAt`; `_id` and `createdAt` are untouched. -/
def applyUpdate (u : UserRecord) (i : UserInput) (now : Nat) : UserRecord :=
  { id := u.id
    name := (i.name.map trimStr).getD u.name
    email := (i.email.map normEmail).getD u.email
    age := match i.age with | some a => some a | none => u.age
    city := match i.city with | some c => some (trimStr c) | none => u.city
    phone := match i.phone with | some p => some (trimStr p) | none => u.phone
    createdAt := u.createdAt
    updatedAt := now }

/-- Replace the first record carrying `id` (the single document matched by
`findByIdAndUpdate`). -/
def replaceById (l : List UserRecord) (id : Nat) (u' : UserRecord) : List UserRecord :=
  match l with
  | [] => []
  | v :: vs => if v.id = id then u' :: vs else v :: replaceById vs id u'

/-- `router.put("/:id")`: the duplicate-email guard `if (email)` (JS truthiness,
so an absent or empty email skips it) runs `findOne({email, _id: {$ne: id}})`
first; then `findByIdAndUpdate` resolves existence, validates, and updates. -/
def updateUser (st : Store) (now : Nat) (id : Nat) (i : UserInput) : UpdateRes × Store :=
  let emailDup : Bool :=
    match i.email with
    | none => false
    | some e =>
      if e.isEmpty then false
      else st.users.any (fun u => decide (u.id ≠ id) && u.email == normEmail e)
  if emailDup then (.dupU, st)
  else
    match st.users.find? (fun u => u.id == id) with
    | none => (.notFoundU, st)
    | some u =>
      if fieldsValid i then
        let u' := applyUpdate u i now
        (.updated u', { st with users := replaceById st.users id u' })
      else (.invalidU, st)

/-- Outcome of `DELETE /api/users/:id`. -/
inductive DeleteRes where
  | notFoundD : DeleteRes
  | deletedD : UserRecord → DeleteRes
deriving DecidableEq, Repr

/-- HTTP status of the delete route. -/
def deleteStatus : DeleteRes → Nat
  | .deletedD _ => 200
  | .notFoundD => 404

/-- `router.delete("/:id")`: `findByIdAndDelete` removes the document with that
id and returns its snapshot, or `null` (404). -/
def deleteUser (st : Store) (id : Nat) : DeleteRes × Store :=
  match st.users.find? (fun u => u.id == id) with
  | none => (.notFoundD, st)
  | some u =>
    (.deletedD u, { st with users := st.users.eraseP (fun v => v.id == id) })

/-- The `$or` regex filter of the search route on one document.  The route
passes the raw path segment as a `$regex` pattern with the `i` option; for
patterns free of regex metacharacters this is case-insensitive substring
containment, which is what is embedded. -/
def userMatchesQuery (q : Str) (u : UserRecord) : Bool :=
  strContainsSub (lowerStr u.name) (lowerStr q) ||
  strContainsSub (lowerStr u.email) (lowerStr q)

/-- `router.get("/search/:query")`: the matching documents, sorted by
`createdAt` descending. -/
def searchUsers (st : Store) (q : Str) : List UserRecord :=
  sortDesc (st.users.filter (userMatchesQuery q))

/-! ### Health monitoring (`utils/healthCheck.js`, `server.js`) -/

/-- Mongoose `connection.readyState` values. -/
inductive ConnState where
  | disconnected : ConnState
  | connected : ConnState
  | connecting : ConnState
  | disconnecting : ConnState
deriving DecidableEq, Repr

/-- Status labels appearing in the health views. -/
inductive HCStatus where
  | OK : HCStatus
  | ERROR : HCStatus
  | READY : HCStatus
  | NOT_READY : HCStatus
  | ALIVE : HCStatus
deriving DecidableEq, Repr

/-- The store-adapter environment a health check observes: the connection
state, and the outcome of `admin().ping()` when attempted — a latency, or a
thrown error message. -/
structure DbEnv where
  state : ConnState
  ping : Except Str Nat
deriving Repr

/-- Did the ping succeed? -/
def DbEnv.pingOk (env : DbEnv) : Bool :=
  match env.ping with
  | .ok _ => true
  | .error _ => false

/-- The database view object (`checkDatabase`): status plus the fields the
claims observe (`state` is absent in the catch branch of the source). -/
structure DbCheck where
  status : HCStatus
  state : Option ConnState
  error : Option Str
  responseTime : Option Nat
deriving DecidableEq, Repr

/-- `checkDatabase` of `utils/healthCheck.js`: `OK` with the ping latency when
connected and the ping succeeds; `ERROR` with an error message otherwise (the
ping throw is caught internally and never escapes). -/
def checkDatabase (env : DbEnv) : DbCheck :=
  if env.state = .connected then
    match env.ping with
    | .ok t => { status := .OK, state := some .connected, error := none, responseTime := some t }
    | .error m => { status := .ERROR, state := none, error := some m, responseTime := none }
  else
    { status := .ERROR, state := some env.state
      error := some "Database is not connected".toList, responseTime := none }

/-- The basic health view (`getBasicHealth`): always `OK`. -/
structure BasicHealth where
  status : HCStatus
deriving DecidableEq, Repr

/-- `getBasicHealth` of `utils/healthCheck.js`. -/
def getBasicHealth : BasicHealth := { status := .OK }

/-- The detailed health view: its status mirrors the database check. -/
structure Detailed where
  status : HCStatus
  database : DbCheck
  healthCheckCount : Nat
  server : HCStatus
deriving DecidableEq, Repr

/-- `getDetailedHealth` of `utils/healthCheck.js`: `OK` iff `checkDatabase`
reports `OK`; also reports the served-count counter. -/
def getDetailedHealth (env : DbEnv) (count : Nat) : Detailed :=
  let db := checkDatabase env
  { status := if db.status = .OK then .OK else .ERROR
    database := db
    healthCheckCount := count
    server := .OK }

/-- The readiness view. -/
structure Readiness where
  status : HCStatus
  error : Option Str
deriving DecidableEq, Repr

/-- `checkReadiness` of `utils/healthCheck.js`: `READY` iff the connection
state is `connected` and the ping succeeds; a ping throw is caught and yields
`NOT_READY` with the error message. -/
def checkReadiness (env : DbEnv) : Readiness :=
  if env.state = .connected then
    match env.ping with
    | .ok _ => { status := .READY, error := none }
    | .error m => { status := .NOT_READY, error := some m }
  else
    { status := .NOT_READY, error := none }

/-- The liveness view. -/
structure Liveness where
  status : HCStatus
deriving DecidableEq, Repr

/-- `checkLiveness` of `utils/healthCheck.js`: a constant — it consults
nothing, in particular not the store. -/
def checkLiveness : Liveness := { status := .ALIVE }

/-- Raw process figures (`getSystemMetrics`); opaque to every claim, carried
through the dashboard unchanged. -/
structure SystemMetrics where
  pid : Nat
  uptime : Nat
deriving DecidableEq, Repr

/-- `GET /ready` (`server.js`): 200 when `READY`, else 503. -/
def readyRoute (env : DbEnv) : Nat × Readiness :=
  let r := checkReadiness env
  (if r.status = .READY then 200 else 503, r)

/-- `GET /alive` (`server.js`): always 200 `ALIVE`. -/
def aliveRoute : Nat × Liveness := (200, checkLiveness)

/-- The six sub-checks of the dashboard. -/
structure DashboardChecks where
  basic : BasicHealth
  detailed : Detailed
  database : DbCheck
  readiness : Readiness
  liveness : Liveness
  metrics : SystemMetrics
deriving DecidableEq, Repr

/-- The dashboard body. -/
structure Dashboard where
  overall_status : HCStatus
  checks : DashboardChecks
deriving DecidableEq, Repr

/-- `GET /health/dashboard` (`server.js`): `Promise.all` over the six
sub-checks.  Every sub-check catches its own failures and returns an
error-bearing object instead of throwing, so the aggregation always reaches
the 200 response with all six results; the `catch` branch (500,
`overall_status: ERROR`) is reachable only by an exception inside the
aggregation itself, which no modelled sub-check produces. -/
def dashboardRoute (env : DbEnv) (count : Nat) (m : SystemMetrics) : Nat × Dashboard :=
  let d := getDetailedHealth env count
  (200,
   { overall_status := d.status
     checks :=
       { basic := getBasicHealth
         detailed := d
         database := checkDatabase env
         readiness := checkReadiness env
         liveness := checkLiveness
         metrics := m } })

/-- Express mounting of the counter middleware: `app.use("/health", ...)`
matches `/health` itself and every path below it (`/health/detailed`,
`/health/database`, `/health/dashboard`), on a segment boundary. -/
def healthPathCounts (p : Str) : Bool :=
  p == "/health".toList || strStartsWith p "/health/".toList

/-- The basic health check is the `/health` path itself (`GET /health`). -/
def isBasicHealthPath (p : Str) : Bool := p == "/health".toList

/-- The served-count counter after a sequence of requests: it starts at 0 at
process start and the middleware increments it on every request whose path is
under `/health` (`server.js` lines 22-25, `incrementHealthCheckCount`). -/
def counterAfter (reqs : List Str) : Nat :=
  reqs.foldl (fun c p => if healthPathCounts p then c + 1 else c) 0

/-! ### Helper lemmas -/

theorem mem_insertByCreated {w u : UserRecord} {l : List UserRecord} :
    w ∈ insertByCreated u l ↔ w = u ∨ w ∈ l := by
  induction l with
  | nil => simp [insertByCreated]
  | cons v vs ih =>
    unfold insertByCreated
    by_cases h : u.createdAt ≤ v.createdAt
    · simp only [if_pos h, List.mem_cons, ih]
      tauto
    · simp only [if_neg h, List.mem_cons]

theorem insertByCreated_perm (u : UserRecord) (l : List UserRecord) :
    List.Perm (insertByCreated u l) (u :: l) := by
  induction l with
  | nil => simp [insertByCreated]
  | cons v vs ih =>
    unfold insertByCreated
    by_cases h : u.createdAt ≤ v.createdAt
    · simp only [if_pos h]
      exact (List.Perm.cons v ih).trans (List.Perm.swap u v vs)
    · simp [if_neg h]

theorem sortDesc_perm (l : List UserRecord) : List.Perm (sortDesc l) l := by
  induction l with
  | nil => simp [sortDesc]
  | cons u us ih =>
    unfold sortDesc
    exact (insertByCreated_perm u (sortDesc us)).trans (List.Perm.cons u ih)

theorem pairwise_insertByCreated {u : UserRecord} {l : List UserRecord}
    (h : l.Pairwise (fun a b => b.createdAt ≤ a.createdAt)) :
    (insertByCreated u l).Pairwise (fun a b => b.createdAt ≤ a.createdAt) := by
  induction l with
  | nil => simp [insertByCreated]
  | cons v vs ih =>
    rw [List.pairwise_cons] at h
    unfold insertByCreated
    by_cases hc : u.createdAt ≤ v.createdAt
    · rw [if_pos hc, List.pairwise_cons]
      refine ⟨?_, ih h.2⟩
      intro w hw
      rcases mem_insertByCreated.1 hw with rfl | hw
      · exact hc
      · exact h.1 w hw
    · rw [if_neg hc, List.pairwise_cons]
      refine ⟨?_, List.pairwise_cons.2 h⟩
      intro w hw
      rcases List.mem_cons.1 hw with rfl | hw
      · omega
      · have := h.1 w hw
        omega

theorem sortDesc_sorted (l : List UserRecord) :
    (sortDesc l).Pairwise (fun a b => b.createdAt ≤ a.createdAt) := by
  induction l with
  | nil => simp [sortDesc]
  | cons u us ih => exact pairwise_insertByCreated ih

theorem strStartsWith_iff (s q : Str) :
    strStartsWith s q = true ↔ ∃ r, s = q ++ r := by
  induction q generalizing s with
  | nil => simp [strStartsWith]
  | cons d ds ih =>
    cases s with
    | nil => simp [strStartsWith]
    | cons c cs =>
      simp only [strStartsWith, Bool.and_eq_true, beq_iff_eq, ih, List.cons_append,
        List.cons.injEq]
      constructor
      · rintro ⟨rfl, r, rfl⟩
        exact ⟨r, rfl, rfl⟩
      · rintro ⟨r, rfl, rfl⟩
        exact ⟨rfl, r, rfl⟩

theorem strContainsSub_iff (s q : Str) :
    strContainsSub s q = true ↔ ∃ l r, s = l ++ q ++ r := by
  induction s with
  | nil =>
    simp only [strContainsSub, strStartsWith_iff]
    constructor
    · rintro ⟨r, h⟩
      exact ⟨[], r, h⟩
    · rintro ⟨l, r, h⟩
      cases l with
      | nil => exact ⟨r, h⟩
      | cons x xs => simp at h
  | cons c cs ih =>
    simp only [strContainsSub, Bool.or_eq_true, strStartsWith_iff, ih]
    constructor
    · rintro (⟨r, h⟩ | ⟨l, r, h⟩)
      · exact ⟨[], r, by simpa using h⟩
      · exact ⟨c :: l, r, by simp [h]⟩
    · rintro ⟨l, r, h⟩
      cases l with
      | nil => exact Or.inl ⟨r, by simpa using h⟩
      | cons x xs =>
        simp only [List.cons_append, List.cons.injEq] at h
        exact Or.inr ⟨xs, r, h.2⟩

theorem counterFold_shift (reqs : List Str) :
    ∀ c, reqs.foldl (fun c p => if healthPathCounts p then c + 1 else c) c =
      c + List.countP healthPathCounts reqs := by
  induction reqs with
  | nil => intro c; simp
  | cons p ps ih =>
    intro c
    simp only [List.foldl_cons, List.countP_cons]
    by_cases h : healthPathCounts p = true
    · rw [if_pos h, ih, if_pos h]
      omega
    · rw [if_neg h, ih, if_neg h]
      omega

theorem mem_replaceById_of_ne {v : UserRecord} {l : List UserRecord} {id : Nat}
    {u' : UserRecord} (hv : v ∈ l) (hne : v.id ≠ id) : v ∈ replaceById l id u' := by
  induction l with
  | nil => simp at hv
  | cons w ws ih =>
    unfold replaceById
    rcases List.mem_cons.1 hv with rfl | hv
    · rw [if_neg hne]
      exact List.mem_cons_self _ _
    · by_cases hw : w.id = id
      · rw [if_pos hw]
        exact List.mem_cons_of_mem _ hv
      · rw [if_neg hw]
        exact List.mem_cons_of_mem _ (ih hv)

theorem mem_replaceById {v u' : UserRecord} {l : List UserRecord} {id : Nat}
    (hv : v ∈ replaceById l id u') : v = u' ∨ v ∈ l := by
  induction l with
  | nil => simp [replaceById] at hv
  | cons w ws ih =>
    unfold replaceById at hv
    by_cases hw : w.id = id
    · rw [if_pos hw] at hv
      rcases List.mem_cons.1 hv with rfl | hv
      · exact Or.inl rfl
      · exact Or.inr (List.mem_cons_of_mem _ hv)
    · rw [if_neg hw] at hv
      rcases List.mem_cons.1 hv with rfl | hv
      · exact Or.inr (List.mem_cons_self _ _)
      · rcases ih hv with h | h
        · exact Or.inl h
        · exact Or.inr (List.mem_cons_of_mem _ h)

theorem length_replaceById (l : List UserRecord) (id : Nat) (u' : UserRecord) :
    (replaceById l id u').length = l.length := by
  induction l with
  | nil => rfl
  | cons w ws ih =>
    unfold replaceById
    by_cases hw : w.id = id
    · rw [if_pos hw]; simp
    · rw [if_neg hw]; simp [ih]

theorem find?_eraseP_id (l : List UserRecord) (id : Nat)
    (hnd : (l.map (·.id)).Nodup) :
    (l.eraseP (fun v => v.id == id)).find? (fun u => u.id == id) = none := by
  induction l with
  | nil => rfl
  | cons h t ih =>
    simp only [List.map_cons, List.nodup_cons] at hnd
    by_cases hh : h.id = id
    · rw [List.eraseP_cons_of_pos (by simpa using hh)]
      rw [List.find?_eq_none]
      intro u hu
      simp only [beq_iff_eq]
      intro hud
      exact hnd.1 (by
        rw [List.mem_map]
        exact ⟨u, hu, by omega⟩)
    · rw [List.eraseP_cons_of_neg (by simpa using hh)]
      rw [List.find?_cons_of_neg _ (by simp [hh])]
      exact ih hnd.2

theorem ceil_bound (n L : Int) (hL : 1 ≤ L) : n ≤ ((n + L - 1) / L) * L := by
  have h := Int.ediv_add_emod (n + L - 1) L
  have hr2 : (n + L - 1) % L < L := Int.emod_lt_of_pos _ (by omega)
  have hr1 : 0 ≤ (n + L - 1) % L := Int.emod_nonneg _ (by omega)
  have hq : ((n + L - 1) / L) * L = L * ((n + L - 1) / L) := Int.mul_comm _ _
  linarith

theorem range_flatMap_take_drop {α : Type} (L : Nat) :
    ∀ (t : Nat) (l : List α), l.length ≤ t * L →
      (List.range t).flatMap (fun k => (l.drop (k * L)).take L) = l := by
  intro t
  induction t with
  | zero =>
    intro l h
    simp only [Nat.zero_mul, Nat.le_zero, List.length_eq_zero] at h
    simp [h]
  | succ t ih =>
    intro l h
    have hstep : ∀ k : Nat, (l.drop (Nat.succ k * L)).take L =
        ((l.drop L).drop (k * L)).take L := by
      intro k
      rw [List.drop_drop, Nat.succ_mul, Nat.add_comm L (k * L)]
    have hlen : (l.drop L).length ≤ t * L := by
      have hm : (t + 1) * L = t * L + L := by ring
      rw [hm] at h
      simp only [List.length_drop]
      omega
    rw [List.range_succ_eq_map, List.flatMap_cons, List.flatMap_map]
    simp only [hstep]
    rw [ih (l.drop L) hlen]
    simp [List.take_append_drop]

/-! ### Claim theorems -/

/-- C3: `checkReadiness` reports `READY` iff the store state is `connected`
and the ping succeeds; whenever the state is not `connected` or the ping
fails, `GET /ready` serves 503 with `NOT_READY`, while `GET /alive` always
serves 200 `ALIVE` — `checkLiveness` is a constant and never consults the
store. -/
theorem readiness_liveness_contract (env : DbEnv) :
    ((checkReadiness env).status = .READY ↔ env.state = .connected ∧ env.pingOk = true) ∧
    (env.state ≠ .connected ∨ env.pingOk = false →
      (readyRoute env).1 = 503 ∧ (readyRoute env).2.status = .NOT_READY) ∧
    aliveRoute.1 = 200 ∧ aliveRoute.2.status = .ALIVE := by
  unfold readyRoute aliveRoute checkReadiness checkLiveness DbEnv.pingOk
  rcases env with ⟨state, ping⟩
  cases state <;> rcases ping with t | m <;> simp

/-- C3 witness: with the store disconnected, `/ready` serves 503 `NOT_READY`. -/
theorem readiness_liveness_contract_witness :
    (readyRoute ⟨.disconnected, .ok 1⟩).1 = 503 ∧
    (readyRoute ⟨.disconnected, .ok 1⟩).2.status = .NOT_READY :=
  (readiness_liveness_contract ⟨.disconnected, .ok 1⟩).2.1 (Or.inl (by decide))

/-- C9: the dashboard always reaches its 200 response carrying all six
sub-check results; a failing database/readiness sub-check is reported through
its own status/error fields without disturbing the other checks, and the
overall status mirrors the detailed view.  (The 500 `overall_status: ERROR`
catch branch is reachable only by an exception of the aggregation itself,
which no sub-check produces — each catches its own failures.) -/
theorem dashboard_fault_isolation (env : DbEnv) (count : Nat) (m : SystemMetrics) :
    (dashboardRoute env count m).1 = 200 ∧
    (dashboardRoute env count m).2.checks.basic = getBasicHealth ∧
    (dashboardRoute env count m).2.checks.basic.status = .OK ∧
    (dashboardRoute env count m).2.checks.detailed = getDetailedHealth env count ∧
    (dashboardRoute env count m).2.checks.database = checkDatabase env ∧
    (dashboardRoute env count m).2.checks.readiness = checkReadiness env ∧
    (dashboardRoute env count m).2.checks.liveness.status = .ALIVE ∧
    (dashboardRoute env count m).2.checks.metrics = m ∧
    (dashboardRoute env count m).2.overall_status = (getDetailedHealth env count).status ∧
    ((checkDatabase env).status = .ERROR →
      (checkDatabase env).error ≠ none ∧ (dashboardRoute env count m).1 = 200) := by
  refine ⟨rfl, rfl, rfl, rfl, rfl, rfl, rfl, rfl, rfl, ?_⟩
  intro hdb
  refine ⟨?_, rfl⟩
  unfold checkDatabase at hdb ⊢
  rcases env with ⟨state, ping⟩
  cases state <;> rcases ping with t | msg <;> simp_all

/-- C9 witness: with the store disconnected the dashboard still serves 200 and
the database sub-check carries an error field. -/
theorem dashboard_fault_isolation_witness :
    (checkDatabase ⟨.disconnected, .error "down".toList⟩).error ≠ none ∧
    (dashboardRoute ⟨.disconnected, .error "down".toList⟩ 0 ⟨1, 2⟩).1 = 200 :=
  (dashboard_fault_isolation ⟨.disconnected, .error "down".toList⟩ 0
    ⟨1, 2⟩).2.2.2.2.2.2.2.2.2 (by decide)

/-- C8 counterexample: a single request to `/health/detailed` increments the
served-count counter although zero basic-health checks (`/health` itself) were
served — the middleware is mounted on the `/health` path prefix, not on the
basic path alone. -/
theorem health_counter_nonbasic_increment :
    counterAfter ["/health/detailed".toList] = 1 ∧
    List.countP isBasicHealthPath ["/health/detailed".toList] = 0 := by
  decide

/-- C8 (amended): the served-count counter starts at zero at process start,
equals exactly the number of requests served under the `/health` path prefix
(basic, detailed, database and dashboard checks), and is monotone: it never
decreases as further requests arrive. -/
theorem health_counter_invariant (reqs more : List Str) :
    counterAfter [] = 0 ∧
    counterAfter reqs = List.countP healthPathCounts reqs ∧
    counterAfter reqs ≤ counterAfter (reqs ++ more) := by
  refine ⟨rfl, ?_, ?_⟩
  · unfold counterAfter
    rw [counterFold_shift reqs 0]
    omega
  · unfold counterAfter
    rw [counterFold_shift reqs 0, counterFold_shift (reqs ++ more) 0,
      List.countP_append]
    omega

/-- C7 counterexample: the query value "-2" parses to the non-positive number
-2 but is not clamped to the default page 1 — the route computes page = -2,
whose negative skip makes the store query fail instead of serving the
defaulted first page. -/
theorem list_params_negative_not_clamped :
    parseIntJS "-2".toList = some (-2) ∧
    effPage (some "-2".toList) = -2 ∧
    effPage (some "-2".toList) ≠ 1 ∧
    listUsersQS { users := [], nextId := 0 } (some "-2".toList) (some "7".toList) = .err := by
  decide

/-- C7 (amended): an absent, non-numeric (`NaN`) or zero page/limit value
defaults to page = 1 and limit = 10; any other parsed value — including
negative ones — is passed through unchanged to the skip/limit computation. -/
theorem list_params_defaulting (q : Option Str) :
    (q.bind parseIntJS = none → effPage q = 1 ∧ effLimit q = 10) ∧
    (q.bind parseIntJS = some 0 → effPage q = 1 ∧ effLimit q = 10) ∧
    (∀ v : Int, q.bind parseIntJS = some v → v ≠ 0 →
      effPage q = v ∧ effLimit q = v) := by
  unfold effPage effLimit jsOr
  refine ⟨?_, ?_, ?_⟩
  · intro h
    rw [h]
    exact ⟨rfl, rfl⟩
  · intro h
    rw [h]
    simp
  · intro v h hv
    rw [h]
    simp [hv]

/-- C7 witness: an absent parameter defaults to page 1 and limit 10. -/
theorem list_params_defaulting_witness :
    effPage none = 1 ∧ effLimit none = 10 :=
  (list_params_defaulting none).1 rfl

/-- C1: when the submitted email coincides — case-insensitively, after the
schema's whitespace trim — with the email of an existing record, create
answers the duplicate 400 and leaves the store unchanged; a valid input whose
email matches no existing record is appended to the store and answered 201
with the persisted record, carrying the freshly generated id and
`createdAt = updatedAt =` the creation time. -/
theorem create_email_uniqueness (st : Store) (now : Nat) (i : UserInput) (e : Str)
    (hwf : WFStore st) (he : i.email = some e) :
    ((∃ u ∈ st.users, emailMatches e u.email) →
      createUser st now i = (.dup, st) ∧
      createStatus (createUser st now i).1 = 400) ∧
    (inputValid i = true → (∀ u ∈ st.users, ¬ emailMatches e u.email) →
      ∃ r, createUser st now i =
          (.created r, { users := st.users ++ [r], nextId := st.nextId + 1 }) ∧
        createStatus (.created r) = 201 ∧
        r.id = st.nextId ∧ r.createdAt = now ∧ r.updatedAt = now ∧
        r.email = normEmail e ∧ r.name = trimStr (i.name.getD [])) := by
  constructor
  · rintro ⟨u, hu, hm⟩
    have h1 : normEmail u.email = u.email := (hwf.1 u hu).1
    have hany : st.users.any (fun v => v.email == normEmail e) = true :=
      List.any_eq_true.2 ⟨u, hu, by rw [beq_iff_eq]; exact (hm.trans h1).symm⟩
    have hcu : createUser st now i = (.dup, st) := by
      unfold createUser
      rw [he]
      simp [hany]
    rw [hcu]
    exact ⟨rfl, rfl⟩
  · intro hv hnm
    have hany : st.users.any (fun v => v.email == normEmail e) = false := by
      rw [List.any_eq_false]
      intro u hu
      rw [beq_iff_eq]
      intro hue
      exact hnm u hu (by unfold emailMatches; rw [(hwf.1 u hu).1]; exact hue.symm)
    refine ⟨{ id := st.nextId, name := trimStr (i.name.getD []),
              email := normEmail e, age := i.age, city := i.city.map trimStr,
              phone := i.phone.map trimStr, createdAt := now,
              updatedAt := now }, ?_, rfl, rfl, rfl, rfl, rfl, rfl⟩
    unfold createUser
    rw [he]
    simp [hany, hv]

/-- C1 witness: the spec scenario — creating Jo Ann with a fresh email against
a one-record store succeeds with the generated id and timestamps. -/
theorem create_email_uniqueness_witness :
    ∃ r, createUser
        ⟨[⟨0, "Ann".toList, "ann@x.com".toList, none, none, none, 3, 3⟩], 1⟩ 5
        ⟨some "Jo Ann".toList, some "jo@x.com".toList, none, none, none⟩ =
        (.created r,
          { users := [⟨0, "Ann".toList, "ann@x.com".toList, none, none, none, 3, 3⟩] ++ [r],
            nextId := 1 + 1 }) ∧
      createStatus (.created r) = 201 ∧
      r.id = 1 ∧ r.createdAt = 5 ∧ r.updatedAt = 5 ∧
      r.email = normEmail "jo@x.com".toList ∧
      r.name = trimStr ((some "Jo Ann".toList).getD []) :=
  (create_email_uniqueness
    ⟨[⟨0, "Ann".toList, "ann@x.com".toList, none, none, none, 3, 3⟩], 1⟩ 5
    ⟨some "Jo Ann".toList, some "jo@x.com".toList, none, none, none⟩
    "jo@x.com".toList (by decide) rfl).2 (by decide) (by decide)

/-- C10: in the update route the duplicate-email lookup runs before
`findByIdAndUpdate` resolves existence, so an update naming an id that matches
no record, with an email owned by some existing record, is answered 400
(duplicate) rather than 404 (not found). -/
theorem update_dup_checked_before_existence (st : Store) (now id : Nat)
    (i : UserInput) (e : Str) (hwf : WFStore st) (he : i.email = some e)
    (hno : ∀ u ∈ st.users, u.id ≠ id)
    (hdup : ∃ u ∈ st.users, emailMatches e u.email) :
    updateUser st now id i = (.dupU, st) ∧
    updateStatus (updateUser st now id i).1 = 400 ∧
    updateStatus (updateUser st now id i).1 ≠ 404 := by
  obtain ⟨u, hu, hm⟩ := hdup
  have h1 : normEmail u.email = u.email := (hwf.1 u hu).1
  have hne : e ≠ [] := by
    intro hE
    apply (hwf.1 u hu).2
    have : normEmail e = u.email := hm.trans h1
    rw [hE] at this
    exact this.symm
  have hemp : e.isEmpty = false := by
    cases e with
    | nil => exact absurd rfl hne
    | cons c cs => rfl
  have hany : st.users.any
      (fun v => decide (v.id ≠ id) && (v.email == normEmail e)) = true :=
    List.any_eq_true.2 ⟨u, hu, by
      rw [Bool.and_eq_true, decide_eq_true_iff, beq_iff_eq]
      exact ⟨hno u hu, (hm.trans h1).symm⟩⟩
  have hcu : updateUser st now id i = (.dupU, st) := by
    unfold updateUser
    simp only [he]
    rw [hemp, hany]
    simp
  rw [hcu]
  exact ⟨rfl, rfl, by simp [updateStatus]⟩

/-- C10 witness: id 5 matches nothing, the email (case-changed) is owned by
record 0 — the route answers 400, not 404. -/
theorem update_dup_checked_before_existence_witness :
    updateUser ⟨[⟨0, "Ann".toList, "ann@x.com".toList, none, none, none, 3, 3⟩], 1⟩
        7 5 ⟨none, some "ANN@x.com".toList, none, none, none⟩ =
      (.dupU, ⟨[⟨0, "Ann".toList, "ann@x.com".toList, none, none, none, 3, 3⟩], 1⟩) ∧
    updateStatus (updateUser
        ⟨[⟨0, "Ann".toList, "ann@x.com".toList, none, none, none, 3, 3⟩], 1⟩
        7 5 ⟨none, some "ANN@x.com".toList, none, none, none⟩).1 = 400 ∧
    updateStatus (updateUser
        ⟨[⟨0, "Ann".toList, "ann@x.com".toList, none, none, none, 3, 3⟩], 1⟩
        7 5 ⟨none, some "ANN@x.com".toList, none, none, none⟩).1 ≠ 404 :=
  update_dup_checked_before_existence
    ⟨[⟨0, "Ann".toList, "ann@x.com".toList, none, none, none, 3, 3⟩], 1⟩
    7 5 ⟨none, some "ANN@x.com".toList, none, none, none⟩ "ANN@x.com".toList
    (by decide) rfl (by decide) (by decide)

/-- C4: a successful update never changes the record's `id` or `createdAt`,
sets `updatedAt` to the update time (so it strictly advances whenever the
clock has advanced past the old value), and leaves every other record of the
store untouched. -/
theorem update_frame (st : Store) (now id : Nat) (i : UserInput)
    (u' : UserRecord) (st' : Store)
    (h : updateUser st now id i = (.updated u', st')) :
    ∃ u, st.users.find? (fun v => v.id == id) = some u ∧ u ∈ st.users ∧
      u.id = id ∧ u'.id = u.id ∧ u'.createdAt = u.createdAt ∧
      u'.updatedAt = now ∧ (u.updatedAt < now → u.updatedAt < u'.updatedAt) ∧
      st'.users = replaceById st.users id u' ∧ st'.nextId = st.nextId ∧
      (∀ v ∈ st.users, v.id ≠ id → v ∈ st'.users) ∧
      (∀ v ∈ st'.users, v = u' ∨ v ∈ st.users) ∧
      st'.users.length = st.users.length := by
  simp only [updateUser] at h
  split at h
  · simp at h
  · split at h
    · simp at h
    · rename_i u hfind
      split at h
      · rw [Prod.mk.injEq] at h
        obtain ⟨h1, h2⟩ := h
        injection h1 with h1
        subst h1
        subst h2
        have hid : u.id = id := by
          have := List.find?_some hfind
          rwa [beq_iff_eq] at this
        refine ⟨u, hfind, List.mem_of_find?_eq_some hfind, hid, rfl, rfl, rfl,
          fun hlt => hlt, rfl, rfl, ?_, ?_, ?_⟩
        · intro v hv hvne
          exact mem_replaceById_of_ne hv hvne
        · intro v hv
          exact mem_replaceById hv
        · exact length_replaceById st.users id _
      · simp at h

/-- C4 witness: updating record 0's city in a two-record store keeps its id
and createdAt, stamps updatedAt with the update time, and leaves record 1
untouched. -/
theorem update_frame_witness :
    ∃ u, ([⟨0, "Ann".toList, "ann@x.com".toList, none, none, none, 3, 3⟩,
           ⟨1, "Bob".toList, "bob@x.com".toList, none, none, none, 4, 4⟩] :
            List UserRecord).find? (fun v => v.id == 0) = some u ∧
      u ∈ ([⟨0, "Ann".toList, "ann@x.com".toList, none, none, none, 3, 3⟩,
            ⟨1, "Bob".toList, "bob@x.com".toList, none, none, none, 4, 4⟩] :
            List UserRecord) ∧
      u.id = 0 ∧
      (⟨0, "Ann".toList, "ann@x.com".toList, none, some "Oslo".toList, none, 3, 9⟩ :
        UserRecord).id = u.id ∧
      (⟨0, "Ann".toList, "ann@x.com".toList, none, some "Oslo".toList, none, 3, 9⟩ :
        UserRecord).createdAt = u.createdAt ∧
      (⟨0, "Ann".toList, "ann@x.com".toList, none, some "Oslo".toList, none, 3, 9⟩ :
        UserRecord).updatedAt = 9 ∧
      (u.updatedAt < 9 → u.updatedAt <
        (⟨0, "Ann".toList, "ann@x.com".toList, none, some "Oslo".toList, none, 3, 9⟩ :
          UserRecord).updatedAt) ∧
      (⟨[⟨0, "Ann".toList, "ann@x.com".toList, none, some "Oslo".toList, none, 3, 9⟩,
         ⟨1, "Bob".toList, "bob@x.com".toList, none, none, none, 4, 4⟩], 2⟩ : Store).users =
        replaceById
          [⟨0, "Ann".toList, "ann@x.com".toList, none, none, none, 3, 3⟩,
           ⟨1, "Bob".toList, "bob@x.com".toList, none, none, none, 4, 4⟩] 0
          ⟨0, "Ann".toList, "ann@x.com".toList, none, some "Oslo".toList, none, 3, 9⟩ ∧
      (⟨[⟨0, "Ann".toList, "ann@x.com".toList, none, some "Oslo".toList, none, 3, 9⟩,
         ⟨1, "Bob".toList, "bob@x.com".toList, none, none, none, 4, 4⟩], 2⟩ : Store).nextId = 2 ∧
      (∀ v ∈ ([⟨0, "Ann".toList, "ann@x.com".toList, none, none, none, 3, 3⟩,
               ⟨1, "Bob".toList, "bob@x.com".toList, none, none, none, 4, 4⟩] :
                List UserRecord), v.id ≠ 0 →
        v ∈ (⟨[⟨0, "Ann".toList, "ann@x.com".toList, none, some "Oslo".toList, none, 3, 9⟩,
               ⟨1, "Bob".toList, "bob@x.com".toList, none, none, none, 4, 4⟩], 2⟩ : Store).users) ∧
      (∀ v ∈ (⟨[⟨0, "Ann".toList, "ann@x.com".toList, none, some "Oslo".toList, none, 3, 9⟩,
                ⟨1, "Bob".toList, "bob@x.com".toList, none, none, none, 4, 4⟩], 2⟩ : Store).users,
        v = ⟨0, "Ann".toList, "ann@x.com".toList, none, some "Oslo".toList, none, 3, 9⟩ ∨
        v ∈ ([⟨0, "Ann".toList, "ann@x.com".toList, none, none, none, 3, 3⟩,
              ⟨1, "Bob".toList, "bob@x.com".toList, none, none, none, 4, 4⟩] :
               List UserRecord)) ∧
      (⟨[⟨0, "Ann".toList, "ann@x.com".toList, none, some "Oslo".toList, none, 3, 9⟩,
         ⟨1, "Bob".toList, "bob@x.com".toList, none, none, none, 4, 4⟩], 2⟩ : Store).users.length =
        ([⟨0, "Ann".toList, "ann@x.com".toList, none, none, none, 3, 3⟩,
          ⟨1, "Bob".toList, "bob@x.com".toList, none, none, none, 4, 4⟩] :
           List UserRecord).length :=
  update_frame
    ⟨[⟨0, "Ann".toList, "ann@x.com".toList, none, none, none, 3, 3⟩,
      ⟨1, "Bob".toList, "bob@x.com".toList, none, none, none, 4, 4⟩], 2⟩
    9 0 ⟨none, none, none, some "Oslo".toList, none⟩
    ⟨0, "Ann".toList, "ann@x.com".toList, none, some "Oslo".toList, none, 3, 9⟩
    ⟨[⟨0, "Ann".toList, "ann@x.com".toList, none, some "Oslo".toList, none, 3, 9⟩,
      ⟨1, "Bob".toList, "bob@x.com".toList, none, none, none, 4, 4⟩], 2⟩
    (by decide)

/-- C5: deleting a missing id answers 404 and the store is unchanged; deleting
an existing id removes exactly that record and answers 200 with the removed
record's snapshot; since ids are unique, repeating the delete afterwards
answers 404, never a second success. -/
theorem delete_semantics (st : Store) (id : Nat) (hwf : WFStore st) :
    (st.users.find? (fun v => v.id == id) = none →
      deleteUser st id = (.notFoundD, st) ∧
      deleteStatus (deleteUser st id).1 = 404) ∧
    (∀ u, st.users.find? (fun v => v.id == id) = some u →
      deleteUser st id =
        (.deletedD u, { st with users := st.users.eraseP (fun v => v.id == id) }) ∧
      deleteStatus (deleteUser st id).1 = 200 ∧
      u ∈ st.users ∧ u.id = id ∧
      (deleteUser st id).2.users.length + 1 = st.users.length ∧
      (∀ v ∈ st.users, v.id ≠ id → v ∈ (deleteUser st id).2.users) ∧
      (∀ v ∈ (deleteUser st id).2.users, v ∈ st.users) ∧
      deleteUser (deleteUser st id).2 id = (.notFoundD, (deleteUser st id).2)) := by
  constructor
  · intro hf
    have hdel : deleteUser st id = (.notFoundD, st) := by
      unfold deleteUser
      rw [hf]
    rw [hdel]
    exact ⟨rfl, rfl⟩
  · intro u hf
    have hdel : deleteUser st id =
        (.deletedD u, { st with users := st.users.eraseP (fun v => v.id == id) }) := by
      unfold deleteUser
      rw [hf]
    have hid : u.id = id := by
      have := List.find?_some hf
      rwa [beq_iff_eq] at this
    have hmem : u ∈ st.users := List.mem_of_find?_eq_some hf
    have hpos : 0 < st.users.length := List.length_pos_of_mem hmem
    rw [hdel]
    refine ⟨rfl, rfl, hmem, hid, ?_, ?_, ?_, ?_⟩
    · show (st.users.eraseP (fun v => v.id == id)).length + 1 = st.users.length
      have hlen : (st.users.eraseP (fun v => v.id == id)).length =
          st.users.length - 1 :=
        List.length_eraseP_of_mem hmem
          (by show (u.id == id) = true; rw [beq_iff_eq]; exact hid)
      omega
    · intro v hv hvne
      exact (List.mem_eraseP_of_neg (by simp [hvne])).2 hv
    · intro v hv
      exact (List.eraseP_sublist st.users).subset hv
    · have hnone := find?_eraseP_id st.users id hwf.2
      unfold deleteUser
      simp only [hnone]

/-- C5 witness: deleting record 0 from a one-record store returns its
snapshot, empties the store, and a second delete answers 404. -/
theorem delete_semantics_witness :
    deleteUser ⟨[⟨0, "Ann".toList, "ann@x.com".toList, none, none, none, 3, 3⟩], 1⟩ 0 =
      (.deletedD ⟨0, "Ann".toList, "ann@x.com".toList, none, none, none, 3, 3⟩,
        { (⟨[⟨0, "Ann".toList, "ann@x.com".toList, none, none, none, 3, 3⟩], 1⟩ : Store) with
          users := ([⟨0, "Ann".toList, "ann@x.com".toList, none, none, none, 3, 3⟩] :
            List UserRecord).eraseP (fun v => v.id == 0) }) ∧
    deleteStatus (deleteUser
      ⟨[⟨0, "Ann".toList, "ann@x.com".toList, none, none, none, 3, 3⟩], 1⟩ 0).1 = 200 ∧
    (⟨0, "Ann".toList, "ann@x.com".toList, none, none, none, 3, 3⟩ : UserRecord) ∈
      ([⟨0, "Ann".toList, "ann@x.com".toList, none, none, none, 3, 3⟩] : List UserRecord) ∧
    (⟨0, "Ann".toList, "ann@x.com".toList, none, none, none, 3, 3⟩ : UserRecord).id = 0 ∧
    (deleteUser ⟨[⟨0, "Ann".toList, "ann@x.com".toList, none, none, none, 3, 3⟩], 1⟩
      0).2.users.length + 1 =
      ([⟨0, "Ann".toList, "ann@x.com".toList, none, none, none, 3, 3⟩] :
        List UserRecord).length ∧
    (∀ v ∈ ([⟨0, "Ann".toList, "ann@x.com".toList, none, none, none, 3, 3⟩] :
        List UserRecord), v.id ≠ 0 →
      v ∈ (deleteUser
        ⟨[⟨0, "Ann".toList, "ann@x.com".toList, none, none, none, 3, 3⟩], 1⟩ 0).2.users) ∧
    (∀ v ∈ (deleteUser
        ⟨[⟨0, "Ann".toList, "ann@x.com".toList, none, none, none, 3, 3⟩], 1⟩ 0).2.users,
      v ∈ ([⟨0, "Ann".toList, "ann@x.com".toList, none, none, none, 3, 3⟩] :
        List UserRecord)) ∧
    deleteUser (deleteUser
        ⟨[⟨0, "Ann".toList, "ann@x.com".toList, none, none, none, 3, 3⟩], 1⟩ 0).2 0 =
      (.notFoundD, (deleteUser
        ⟨[⟨0, "Ann".toList, "ann@x.com".toList, none, none, none, 3, 3⟩], 1⟩ 0).2) :=
  (delete_semantics
    ⟨[⟨0, "Ann".toList, "ann@x.com".toList, none, none, none, 3, 3⟩], 1⟩ 0
    (by decide)).2
    ⟨0, "Ann".toList, "ann@x.com".toList, none, none, none, 3, 3⟩ (by decide)

/-- The empty pattern is a substring of every string. -/
theorem strContainsSub_nil (s : Str) : strContainsSub s [] = true := by
  cases s <;> rfl

/-- C6 counterexample: with a non-empty store, searching for the empty query
returns the whole table — the empty pattern matches every record — not an
empty result set as the claim states. -/
theorem search_empty_query_full_table :
    searchUsers ⟨[⟨0, "Ann".toList, "ann@x.com".toList, none, none, none, 3, 3⟩], 1⟩ [] =
      [⟨0, "Ann".toList, "ann@x.com".toList, none, none, none, 3, 3⟩] ∧
    ([⟨0, "Ann".toList, "ann@x.com".toList, none, none, none, 3, 3⟩] :
      List UserRecord) ≠ [] := by
  decide

/-- C6 (amended): search returns exactly the records whose name or email
contains the query as a case-insensitive substring, ordered by `createdAt`
descending; consequently the empty query matches every record and search
returns the full table, not an empty result set. -/
theorem search_substring_semantics (st : Store) (q : Str) :
    List.Perm (searchUsers st q) (st.users.filter (userMatchesQuery q)) ∧
    (∀ u, u ∈ searchUsers st q ↔ u ∈ st.users ∧ userMatchesQuery q u = true) ∧
    (∀ u : UserRecord, userMatchesQuery q u = true ↔
      ((∃ l r, lowerStr u.name = l ++ lowerStr q ++ r) ∨
       (∃ l r, lowerStr u.email = l ++ lowerStr q ++ r))) ∧
    (searchUsers st q).Pairwise (fun a b => b.createdAt ≤ a.createdAt) ∧
    List.Perm (searchUsers st []) st.users := by
  refine ⟨sortDesc_perm _, ?_, ?_, sortDesc_sorted _, ?_⟩
  · intro u
    unfold searchUsers
    rw [(sortDesc_perm _).mem_iff, List.mem_filter]
  · intro u
    unfold userMatchesQuery
    rw [Bool.or_eq_true, strContainsSub_iff, strContainsSub_iff]
  · unfold searchUsers
    have hfull : st.users.filter (userMatchesQuery []) = st.users := by
      rw [List.filter_eq_self]
      intro a _
      unfold userMatchesQuery
      show (strContainsSub (lowerStr a.name) (lowerStr []) ||
        strContainsSub (lowerStr a.email) (lowerStr [])) = true
      rw [show lowerStr [] = [] from rfl, strContainsSub_nil, strContainsSub_nil]
      rfl
    rw [hfull]
    exact sortDesc_perm st.users

/-- `GET /api/users` for valid page/limit: the exact 200 body of the list
route. -/
theorem listUsersCore_ok_form (st : Store) (p L : Int) (hp : 1 ≤ p) (hL : 1 ≤ L) :
    listUsersCore st p L = .ok
      { users := ((sortDesc st.users).drop ((p - 1) * L).toNat).take L.toNat,
        currentPage := p,
        totalPages := ((st.users.length : Int) + L - 1) / L,
        totalUsers := st.users.length } := by
  have h1 : ¬ ((p - 1) * L < 0) := by
    have : (0 : Int) ≤ (p - 1) * L := mul_nonneg (by omega) (by omega)
    omega
  have h2 : ¬ (L = 0) := by omega
  have h3 : (0 : Int) < L := by omega
  have habs : L.natAbs = L.toNat := by omega
  simp [listUsersCore, runFind, jsCeilDiv, h1, h2, h3, habs]

/-- Concatenating the users of pages `1 .. totalPages` (with any limit `L ≥ 1`)
reproduces the whole collection in `createdAt`-descending order. -/
theorem pages_concat (st : Store) (L : Int) (hL : 1 ≤ L) :
    (List.range ((((st.users.length : Int) + L - 1) / L).toNat)).flatMap
      (fun k => pageUsers st ((k : Int) + 1) L) = sortDesc st.users := by
  have hq0 : 0 ≤ ((st.users.length : Int) + L - 1) / L :=
    Int.ediv_nonneg (by omega) (by omega)
  have hbound : (st.users.length : Int) ≤
      ((((st.users.length : Int) + L - 1) / L)) * L := ceil_bound _ _ hL
  have hlenN : (sortDesc st.users).length = st.users.length :=
    (sortDesc_perm st.users).length_eq
  have hcast : (((((st.users.length : Int) + L - 1) / L).toNat * L.toNat : Nat) : Int) =
      (((st.users.length : Int) + L - 1) / L) * L := by
    push_cast
    rw [Int.toNat_of_nonneg hq0, Int.toNat_of_nonneg (by omega : (0:Int) ≤ L)]
  have hNat : (sortDesc st.users).length ≤
      (((st.users.length : Int) + L - 1) / L).toNat * L.toNat := by
    rw [hlenN]
    have h := hbound
    rw [← hcast] at h
    exact_mod_cast h
  have hfun : (fun k : Nat => pageUsers st ((k : Int) + 1) L) =
      (fun k : Nat => ((sortDesc st.users).drop (k * L.toNat)).take L.toNat) := by
    funext k
    have harg : (((k : Int) + 1 - 1) * L).toNat = k * L.toNat := by
      have hx : ((k : Int) + 1 - 1) * L = ((k * L.toNat : Nat) : Int) := by
        push_cast
        rw [Int.toNat_of_nonneg (by omega : (0:Int) ≤ L)]
        ring
      rw [hx, Int.toNat_natCast]
    unfold pageUsers
    rw [listUsersCore_ok_form st ((k : Int) + 1) L (by omega) hL, harg]
  rw [hfun]
  exact range_flatMap_take_drop L.toNat _ (sortDesc st.users) hNat

/-- C2: for `p, L ≥ 1` the list route serves, with status 200, the
`createdAt`-descending collection with `(p-1)*L` records skipped and at most
`L` taken, the total record count, and `totalPages = ceil(total/L)`;
concatenating the pages `1 .. totalPages` yields each record exactly once, in
`createdAt`-descending order. -/
theorem list_pagination (st : Store) (p L : Int) (hp : 1 ≤ p) (hL : 1 ≤ L) :
    ∃ r, listUsersCore st p L = .ok r ∧
      r.users = ((sortDesc st.users).drop ((p - 1) * L).toNat).take L.toNat ∧
      r.currentPage = p ∧
      r.totalUsers = st.users.length ∧
      r.totalPages = ((st.users.length : Int) + L - 1) / L ∧
      r.users.Pairwise (fun a b => b.createdAt ≤ a.createdAt) ∧
      (List.range r.totalPages.toNat).flatMap
        (fun k => pageUsers st ((k : Int) + 1) L) = sortDesc st.users ∧
      List.Perm ((List.range r.totalPages.toNat).flatMap
        (fun k => pageUsers st ((k : Int) + 1) L)) st.users := by
  refine ⟨_, listUsersCore_ok_form st p L hp hL, rfl, rfl, rfl, rfl, ?_, ?_, ?_⟩
  · exact List.Pairwise.sublist
      ((List.take_sublist _ _).trans (List.drop_sublist _ _))
      (sortDesc_sorted st.users)
  · show (List.range ((((st.users.length : Int) + L - 1) / L)).toNat).flatMap
        (fun k => pageUsers st ((k : Int) + 1) L) = sortDesc st.users
    exact pages_concat st L hL
  · show List.Perm
      ((List.range ((((st.users.length : Int) + L - 1) / L)).toNat).flatMap
        (fun k => pageUsers st ((k : Int) + 1) L)) st.users
    rw [pages_concat st L hL]
    exact sortDesc_perm st.users

/-- The five-record store of the spec's pagination scenario. -/
def fiveUserStore : Store :=
  ⟨[⟨0, "A".toList ++ "a".toList, "a@x.com".toList, none, none, none, 1, 1⟩,
    ⟨1, "Bb".toList, "b@x.com".toList, none, none, none, 2, 2⟩,
    ⟨2, "Cc".toList, "c@x.com".toList, none, none, none, 3, 3⟩,
    ⟨3, "Dd".toList, "d@x.com".toList, none, none, none, 4, 4⟩,
    ⟨4, "Ee".toList, "e@x.com".toList, none, none, none, 5, 5⟩], 5⟩

/-- C2 witness: the spec scenario — 5 records, `list(page=1, limit=2)` gives
`totalPages = 3` and the pages partition the collection newest-first. -/
theorem list_pagination_witness :
    ∃ r, listUsersCore fiveUserStore 1 2 = .ok r ∧
      r.users = ((sortDesc fiveUserStore.users).drop
        (((1 : Int) - 1) * 2).toNat).take (2 : Int).toNat ∧
      r.currentPage = 1 ∧
      r.totalUsers = fiveUserStore.users.length ∧
      r.totalPages = ((fiveUserStore.users.length : Int) + 2 - 1) / 2 ∧
      r.users.Pairwise (fun a b => b.createdAt ≤ a.createdAt) ∧
      (List.range r.totalPages.toNat).flatMap
        (fun k => pageUsers fiveUserStore ((k : Int) + 1) 2) =
        sortDesc fiveUserStore.users ∧
      List.Perm ((List.range r.totalPages.toNat).flatMap
        (fun k => pageUsers fiveUserStore ((k : Int) + 1) 2)) fiveUserStore.users :=
  list_pagination fiveUserStore 1 2 (by decide) (by decide)
